import Mathlib

/-!
Shallow embedding of the crawl orchestration engine of the `web-crawler-json`
repository (`src/WebCrawler.js`).  URLs are abstracted as strings; the network
is abstracted as a function from URL and attempt index to a raw fetch outcome;
HTML extraction is abstracted by letting a successful response carry directly
the list of discovered link URLs (the output of `DataExtractor.extractLinks`).
All definitions are translated from the source; fuel parameters replace the
unbounded JS loop/recursion and are always instantiated large enough.
-/

namespace Crawler

/-- Configuration options of `WebCrawler` that affect the control flow
(`delay`, `timeout` and `userAgent` have no observable effect in the model). -/
structure Options where
  maxPages : Nat
  maxDepth : Nat
  retries : Nat
  respectRobots : Bool
  skipUnauthorized : Bool
  ignoreRestrictions : Bool
deriving DecidableEq, Repr

/-- Raw outcome of one `axios.get` attempt, before `validateStatus` is
consulted: either the server responded with a status code (and, for the model,
the links that `DataExtractor.extractLinks` would find in the body), or the
request failed at transport level with an error message and no response. -/
inductive RawResult where
  | response (status : Nat) (links : List String)
  | transportError (msg : String)
deriving DecidableEq, Repr

/-- The error object thrown by axios: a message and, when a response was
received but rejected by `validateStatus`, its status code
(`error.response?.status`). -/
structure CrawlError where
  message : String
  status : Option Nat
deriving DecidableEq, Repr

/-- The `validateStatus` callback passed to axios in `WebCrawler.makeRequest`. -/
def validateStatus (o : Options) (status : Nat) : Bool :=
  -- If ignoring restrictions, accept all status codes
  if o.ignoreRestrictions then
    decide (200 ≤ status ∧ status < 600)
  -- Accept successful responses
  else if 200 ≤ status ∧ status < 300 then
    true
  -- If not skipping unauthorized, allow auth errors to be handled
  else if !o.skipUnauthorized then
    decide (status < 500)
  -- Reject authorization-related errors immediately
  else if ([401, 403, 407, 429, 451] : List Nat).contains status then
    false
  -- Reject other client/server errors immediately
  else if ([404, 410, 500, 502, 503, 504] : List Nat).contains status then
    false
  else
    decide (status < 400)

/-- Message of the error axios throws when `validateStatus` rejects a status. -/
def axiosStatusMessage (status : Nat) : String :=
  "Request failed with status code " ++ toString status

/-- Result of one axios attempt after `validateStatus` filtering: resolve with
the response (status and extracted links) or reject with an error. -/
def attemptOutcome (o : Options) : RawResult → Except CrawlError (Nat × List String)
  | .response s links =>
      if validateStatus o s then .ok (s, links)
      else .error ⟨axiosStatusMessage s, some s⟩
  | .transportError msg => .error ⟨msg, none⟩

/-- The `noRetryStatuses` list computed in the catch block of `makeRequest`. -/
def noRetryStatuses (o : Options) : List Nat :=
  if o.skipUnauthorized then
    [401, 403, 404, 407, 410, 429, 451, 500, 502, 503, 504]
  else
    [404, 410]

/-- Outcome of `makeRequest`: the final resolved response or thrown error,
together with the list of backoff sleeps (ms) performed before each retry. -/
structure ReqResult where
  result : Except CrawlError (Nat × List String)
  delays : List Nat
deriving Repr

/-- The condition `statusCode && noRetryStatuses.includes(statusCode)` of the
catch block of `makeRequest`. -/
def noRetryHit (o : Options) (e : CrawlError) : Bool :=
  match e.status with
  | some s => (noRetryStatuses o).contains s
  | none => false

/-- Body of `WebCrawler.makeRequest(url, retryCount)` for a fixed URL, with the
per-attempt world `attempt : Nat → RawResult`.  The first argument is fuel
bounding the recursion depth; the recursion is really bounded by the
`retryCount < o.retries` guards, so any fuel above `o.retries` is exact. -/
def makeRequestGo (o : Options) (attempt : Nat → RawResult) :
    Nat → Nat → ReqResult
  | 0, retryCount =>
      (match attemptOutcome o (attempt retryCount) with
       | .ok r => ⟨.ok r, []⟩
       | .error e => ⟨.error e, []⟩)
  | fuel + 1, retryCount =>
      (match attemptOutcome o (attempt retryCount) with
       | .ok r => ⟨.ok r, []⟩
       | .error e =>
         -- If ignoring restrictions, be more aggressive with retries
         if o.ignoreRestrictions then
           if retryCount < o.retries then
             let r := makeRequestGo o attempt fuel (retryCount + 1)
             ⟨r.result, 1000 * (retryCount + 1) :: r.delays⟩
           else ⟨.error e, []⟩
         -- Don't retry statuses in noRetryStatuses
         else if noRetryHit o e then
           ⟨.error e, []⟩
         -- Retry for network errors and other temporary issues
         else if retryCount < o.retries then
           let r := makeRequestGo o attempt fuel (retryCount + 1)
           ⟨r.result, 1000 * (retryCount + 1) :: r.delays⟩
         else ⟨.error e, []⟩)

/-- `WebCrawler.makeRequest(url, retryCount)`: fuel `o.retries + 1` always
suffices since `retryCount` grows by one per recursive call and retries stop
once `retryCount = o.retries`. -/
def makeRequest (o : Options) (attempt : Nat → RawResult) (retryCount : Nat) :
    ReqResult :=
  makeRequestGo o attempt (o.retries + 1) retryCount

/-- The `authRelatedCodes` list of `handleCrawlError`. -/
def authRelatedCodes : List Nat := [401, 403, 407, 429, 451]

/-- The `skipCodes` list of `handleCrawlError`. -/
def skipCodes : List Nat := [404, 410, 500, 502, 503, 504]

/-- Reason strings for authorization-related status codes (`reasons` table in
the first branch of `handleCrawlError`); only ever consulted on members of
`authRelatedCodes`. -/
def authReason : Nat → String
  | 401 => "Unauthorized - Authentication required"
  | 403 => "Forbidden - Access denied"
  | 407 => "Proxy authentication required"
  | 429 => "Too many requests - Rate limited"
  | 451 => "Unavailable for legal reasons"
  | _ => ""

/-- Reason strings for the terminal status codes (`reasons` table in the second
branch of `handleCrawlError`); only ever consulted on members of `skipCodes`. -/
def terminalReason : Nat → String
  | 404 => "Not found"
  | 410 => "Gone"
  | 500 => "Internal server error"
  | 502 => "Bad gateway"
  | 503 => "Service unavailable"
  | 504 => "Gateway timeout"
  | _ => ""

/-- The `authKeywords` list of `handleCrawlError`. -/
def authKeywords : List String :=
  ["unauthorized", "forbidden", "access denied", "authentication", "permission"]

/-- Does the haystack start with the needle (on character lists)? -/
def charsStart : List Char → List Char → Bool
  | [], _ => true
  | _ :: _, [] => false
  | a :: as, b :: bs => a == b && charsStart as bs

/-- Does the needle occur as a contiguous substring of the haystack? -/
def charsContain (needle : List Char) : List Char → Bool
  | [] => charsStart needle []
  | c :: rest => charsStart needle (c :: rest) || charsContain needle rest

/-- JavaScript `errorMessage.includes(keyword)` after `toLowerCase()`. -/
def containsAuthKeyword (msg : String) : Bool :=
  authKeywords.any fun kw => charsContain kw.toList msg.toLower.toList

/-- A record pushed onto `this.skippedUrls`. -/
structure SkipRecord where
  url : String
  reason : String
  parent : Option String
  statusCode : Option Nat
deriving DecidableEq, Repr

/-- A record pushed onto `this.failedUrls`. -/
structure FailureRecord where
  url : String
  error : String
  parent : Option String
deriving DecidableEq, Repr

/-- `WebCrawler.handleCrawlError(error, url, parent)`: returns the skip record
pushed when the method returns `true`, and `none` when it returns `false`
(in which case the caller records a failure instead). -/
def handleCrawlError (o : Options) (e : CrawlError) (url : String)
    (parent : Option String) : Option SkipRecord :=
  -- If ignoring restrictions, don't skip any URLs
  if o.ignoreRestrictions then none
  -- If not skipping unauthorized, don't skip auth-related errors
  else if !o.skipUnauthorized then none
  else
    match e.status with
    | some s =>
        if authRelatedCodes.contains s then
          some ⟨url, authReason s, parent, some s⟩
        else if skipCodes.contains s then
          some ⟨url, terminalReason s, parent, some s⟩
        else if containsAuthKeyword e.message then
          some ⟨url, "Authorization issue: " ++ e.message, parent, some s⟩
        else none
    | none =>
        if containsAuthKeyword e.message then
          some ⟨url, "Authorization issue: " ++ e.message, parent, none⟩
        else none

/-- An entry of `this.queue`: `{ url, depth, parent }`. -/
structure WorkItem where
  url : String
  depth : Nat
  parent : Option String
deriving DecidableEq, Repr

/-- A page record pushed onto `this.results`; of the extractor's fields only
those the orchestration logic reads are kept (`links` drives enqueuing). -/
structure PageRecord where
  url : String
  depth : Nat
  parent : Option String
  links : List String
deriving DecidableEq, Repr

/-- The mutable crawl-session state of a `WebCrawler` instance. -/
structure CrawlState where
  visited : List String
  queue : List WorkItem
  results : List PageRecord
  failedUrls : List FailureRecord
  skippedUrls : List SkipRecord
deriving DecidableEq, Repr

/-- URLs of the queued work items. -/
def queueUrls (q : List WorkItem) : List String := q.map (·.url)

/-- All URLs having received a terminal record, across the three lists. -/
def CrawlState.recordUrls (st : CrawlState) : List String :=
  st.results.map (·.url) ++ st.skippedUrls.map (·.url)
    ++ st.failedUrls.map (·.url)

/-- `WebCrawler.isInQueue(url)`. -/
def isInQueue (queue : List WorkItem) (url : String) : Bool :=
  queue.any (·.url == url)

/-- `WebCrawler.isSkipped(url)`. -/
def isSkipped (skipped : List SkipRecord) (url : String) : Bool :=
  skipped.any (·.url == url)

/-- `WebCrawler.addLinksToQueue(links, depth, parent)`: appends each link not
already visited, queued or skipped; checks run against the queue as it grows
during the loop. -/
def addLinksToQueue (visited : List String) (skipped : List SkipRecord)
    (queue : List WorkItem) (links : List String) (depth : Nat)
    (parent : String) : List WorkItem :=
  links.foldl
    (fun q link =>
      if !visited.contains link && !isInQueue q link && !isSkipped skipped link
      then q ++ [⟨link, depth, some parent⟩]
      else q)
    queue

/-- The crawl environment: options, the per-URL per-attempt network world, and
the parsed robots.txt (`this.robots`, `none` when never loaded; the loaded
parser is abstracted as its `isAllowed` predicate). -/
structure CrawlEnv where
  options : Options
  fetch : String → Nat → RawResult
  robots : Option (String → Bool)

/-- The robots.txt condition of `processQueue`:
`!ignoreRestrictions && this.robots && !this.robots.isAllowed(url, agent)`. -/
def robotsBlocked (env : CrawlEnv) (url : String) : Bool :=
  !env.options.ignoreRestrictions &&
    (match env.robots with
     | some isAllowed => !isAllowed url
     | none => false)

/-- One iteration of the `processQueue` loop on the dequeued item `it`, with
`rest` the remainder of the queue.  `crawlPage` adds the URL to `visited` at
its entry, before the request; that insertion is inlined here (it must be
visible both to the error branches and to `addLinksToQueue`). -/
def crawlStep (env : CrawlEnv) (it : WorkItem) (rest : List WorkItem)
    (st : CrawlState) : CrawlState :=
  -- Skip if already visited
  if st.visited.contains it.url then { st with queue := rest }
  -- Skip if max depth reached
  else if it.depth > env.options.maxDepth then { st with queue := rest }
  -- Check robots.txt only if restrictions are not ignored
  else if robotsBlocked env it.url then
    { st with
      queue := rest
      skippedUrls := st.skippedUrls ++
        [⟨it.url, "robots.txt blocked", it.parent, none⟩] }
  else
    -- crawlPage: this.visited.add(url), then makeRequest
    let visited' := st.visited ++ [it.url]
    match (makeRequest env.options (env.fetch it.url) 0).result with
    | .ok (_, links) =>
        let page : PageRecord := ⟨it.url, it.depth, it.parent, links⟩
        { visited := visited'
          queue := addLinksToQueue visited' st.skippedUrls rest links
                     (it.depth + 1) it.url
          results := st.results ++ [page]
          failedUrls := st.failedUrls
          skippedUrls := st.skippedUrls }
    | .error e =>
        -- shouldSkip = !ignoreRestrictions && handleCrawlError(...)
        if env.options.ignoreRestrictions then
          { st with
            visited := visited'
            queue := rest
            failedUrls := st.failedUrls ++ [⟨it.url, e.message, it.parent⟩] }
        else
          match handleCrawlError env.options e it.url it.parent with
          | some sk =>
              { st with
                visited := visited'
                queue := rest
                skippedUrls := st.skippedUrls ++ [sk] }
          | none =>
              { st with
                visited := visited'
                queue := rest
                failedUrls := st.failedUrls ++ [⟨it.url, e.message, it.parent⟩] }

/-- `WebCrawler.processQueue`: loop while the queue is nonempty and fewer than
`maxPages` pages were collected; fuel bounds the number of iterations. -/
def processQueue (env : CrawlEnv) : Nat → CrawlState → CrawlState
  | 0, st => st
  | fuel + 1, st =>
      if st.results.length < env.options.maxPages then
        match st.queue with
        | [] => st
        | it :: rest => processQueue env fuel (crawlStep env it rest st)
      else st

/-- The session state right after `crawl(startUrl)` seeds the queue. -/
def initState (seed : String) : CrawlState :=
  { visited := []
    queue := [⟨seed, 0, none⟩]
    results := []
    failedUrls := []
    skippedUrls := [] }

/-! Basic bridging lemmas between the Bool-valued membership tests used by the
source's data structures and propositional membership. -/

theorem contains_true_iff {α : Type} [DecidableEq α] (l : List α) (a : α) :
    l.contains a = true ↔ a ∈ l := List.elem_iff

theorem contains_false_iff {α : Type} [DecidableEq α] (l : List α) (a : α) :
    l.contains a = false ↔ a ∉ l := by
  rw [← Bool.not_eq_true, contains_true_iff]

theorem isInQueue_true_iff (q : List WorkItem) (u : String) :
    isInQueue q u = true ↔ u ∈ queueUrls q := by
  simp only [isInQueue, List.any_eq_true, beq_iff_eq, queueUrls, List.mem_map]

theorem isInQueue_false_iff (q : List WorkItem) (u : String) :
    isInQueue q u = false ↔ u ∉ queueUrls q := by
  rw [← Bool.not_eq_true, isInQueue_true_iff]

theorem isSkipped_true_iff (sk : List SkipRecord) (u : String) :
    isSkipped sk u = true ↔ u ∈ sk.map (·.url) := by
  simp only [isSkipped, List.any_eq_true, beq_iff_eq, List.mem_map]

theorem isSkipped_false_iff (sk : List SkipRecord) (u : String) :
    isSkipped sk u = false ↔ u ∉ sk.map (·.url) := by
  rw [← Bool.not_eq_true, isSkipped_true_iff]

/-- The admission condition of `addLinksToQueue`, propositionally. -/
theorem admit_iff (v : List String) (sk : List SkipRecord) (q : List WorkItem)
    (l : String) :
    ((!v.contains l && !isInQueue q l && !isSkipped sk l) = true) ↔
      (l ∉ v ∧ l ∉ queueUrls q ∧ l ∉ sk.map (·.url)) := by
  simp only [Bool.and_eq_true, Bool.not_eq_true']
  rw [contains_false_iff, isInQueue_false_iff, isSkipped_false_iff, and_assoc]

/-! Behaviour of `makeRequest`. -/

/-- A first attempt accepted by `validateStatus` resolves at once: no retry. -/
theorem makeRequest_ok (o : Options) (attempt : Nat → RawResult)
    (r : Nat × List String) (h : attemptOutcome o (attempt 0) = .ok r) :
    makeRequest o attempt 0 = ⟨.ok r, []⟩ := by
  simp [makeRequest, makeRequestGo, h]

/-- A first attempt rejected with a status in `noRetryStatuses` (restrictions
not ignored) throws at once: no retry. -/
theorem makeRequest_noRetry (o : Options) (attempt : Nat → RawResult)
    (e : CrawlError) (h : attemptOutcome o (attempt 0) = .error e)
    (hir : o.ignoreRestrictions = false) (hhit : noRetryHit o e = true) :
    makeRequest o attempt 0 = ⟨.error e, []⟩ := by
  simp [makeRequest, makeRequestGo, h, hir, hhit]

/-- One retry step of `makeRequestGo` when the attempt fails and retrying is
permitted. -/
theorem makeRequestGo_retry (o : Options) (attempt : Nat → RawResult)
    (e : CrawlError) (fuel rc : Nat)
    (h : attemptOutcome o (attempt rc) = .error e)
    (hretry : o.ignoreRestrictions = true ∨ noRetryHit o e = false)
    (hlt : rc < o.retries) :
    makeRequestGo o attempt (fuel + 1) rc =
      ⟨(makeRequestGo o attempt fuel (rc + 1)).result,
       1000 * (rc + 1) :: (makeRequestGo o attempt fuel (rc + 1)).delays⟩ := by
  rcases hretry with hir | hh
  · simp [makeRequestGo, h, hir, hlt]
  · by_cases hir : o.ignoreRestrictions <;> simp [makeRequestGo, h, hir, hh, hlt]

/-- `makeRequestGo` stops with the current error once the budget is spent. -/
theorem makeRequestGo_stop (o : Options) (attempt : Nat → RawResult)
    (e : CrawlError) (fuel rc : Nat)
    (h : attemptOutcome o (attempt rc) = .error e) (hge : ¬ rc < o.retries) :
    makeRequestGo o attempt fuel rc = ⟨.error e, []⟩ := by
  cases fuel with
  | zero => simp [makeRequestGo, h]
  | succ fuel =>
      by_cases hir : o.ignoreRestrictions
      · simp [makeRequestGo, h, hir, hge]
      · by_cases hh : noRetryHit o e <;> simp [makeRequestGo, h, hir, hh, hge]

/-- When every attempt fails with a retryable error, `makeRequestGo` walks the
whole retry budget, sleeping `1000 * n` before the `n`-th retry, and ends with
the error of the last attempt. -/
theorem makeRequestGo_allError (o : Options) (attempt : Nat → RawResult)
    (e : Nat → CrawlError)
    (hatt : ∀ i, attemptOutcome o (attempt i) = .error (e i))
    (hretry : ∀ i, o.ignoreRestrictions = true ∨ noRetryHit o (e i) = false) :
    ∀ fuel rc, o.retries ≤ fuel + rc → rc ≤ o.retries →
      makeRequestGo o attempt fuel rc =
        ⟨.error (e o.retries),
         (List.range (o.retries - rc)).map fun i => 1000 * (rc + i + 1)⟩ := by
  intro fuel
  induction fuel with
  | zero =>
      intro rc h1 h2
      have hrc : rc = o.retries := by omega
      subst hrc
      rw [makeRequestGo_stop o attempt (e o.retries) 0 o.retries
        (hatt o.retries) (by omega)]
      simp
  | succ fuel ih =>
      intro rc h1 h2
      by_cases hlt : rc < o.retries
      · rw [makeRequestGo_retry o attempt (e rc) fuel rc (hatt rc) (hretry rc) hlt,
          ih (rc + 1) (by omega) (by omega)]
        have hn : o.retries - rc = (o.retries - (rc + 1)) + 1 := by omega
        rw [hn, List.range_succ_eq_map, List.map_cons, List.map_map]
        refine congrArg (ReqResult.mk _) ?_
        refine congrArg₂ List.cons (by norm_num) ?_
        refine List.map_congr_left ?_
        intro i _
        simp [Function.comp]
        ring
      · have hrc : rc = o.retries := by omega
        subst hrc
        rw [makeRequestGo_stop o attempt (e o.retries) (fuel + 1) o.retries
          (hatt o.retries) (by omega)]
        simp

/-- `makeRequest` on an always-failing retryable world: full budget of delays
`1000, 2000, ..., 1000 * retries`, then the final error. -/
theorem makeRequest_allError (o : Options) (attempt : Nat → RawResult)
    (e : Nat → CrawlError)
    (hatt : ∀ i, attemptOutcome o (attempt i) = .error (e i))
    (hretry : ∀ i, o.ignoreRestrictions = true ∨ noRetryHit o (e i) = false) :
    makeRequest o attempt 0 =
      ⟨.error (e o.retries),
       (List.range o.retries).map fun i => 1000 * (i + 1)⟩ := by
  rw [makeRequest,
    makeRequestGo_allError o attempt e hatt hretry (o.retries + 1) 0
      (by omega) (by omega)]
  simp

/-! Behaviour of `addLinksToQueue`. -/

theorem addLinksToQueue_nil (v : List String) (sk : List SkipRecord)
    (q : List WorkItem) (d : Nat) (p : String) :
    addLinksToQueue v sk q [] d p = q := rfl

theorem addLinksToQueue_cons (v : List String) (sk : List SkipRecord)
    (q : List WorkItem) (l : String) (ls : List String) (d : Nat) (p : String) :
    addLinksToQueue v sk q (l :: ls) d p =
      addLinksToQueue v sk
        (if !v.contains l && !isInQueue q l && !isSkipped sk l
         then q ++ [⟨l, d, some p⟩] else q) ls d p := rfl

/-- Links are only ever appended after the existing queue: the frontier is a
FIFO (dequeue at the head, admission at the tail). -/
theorem addLinksToQueue_append (v : List String) (sk : List SkipRecord)
    (d : Nat) (p : String) :
    ∀ links q, ∃ tail, addLinksToQueue v sk q links d p = q ++ tail := by
  intro links
  induction links with
  | nil => intro q; exact ⟨[], by simp [addLinksToQueue_nil]⟩
  | cons l ls ih =>
      intro q
      rw [addLinksToQueue_cons]
      by_cases hc : (!v.contains l && !isInQueue q l && !isSkipped sk l) = true
      · rw [if_pos hc]
        obtain ⟨t, ht⟩ := ih (q ++ [⟨l, d, some p⟩])
        refine ⟨⟨l, d, some p⟩ :: t, ?_⟩
        rw [ht, List.append_assoc]
        rfl
      · rw [if_neg hc]
        exact ih q

/-- Admitted links keep the queue's URL list duplicate-free, and every queue
entry after admission either was already queued or is a fresh link: not
visited, not skipped, at the announced depth with the announced parent. -/
theorem addLinksToQueue_spec (v : List String) (sk : List SkipRecord)
    (d : Nat) (p : String) :
    ∀ links q, (queueUrls q).Nodup →
      (queueUrls (addLinksToQueue v sk q links d p)).Nodup ∧
      ∀ it ∈ addLinksToQueue v sk q links d p,
        it ∈ q ∨ (it.url ∉ v ∧ it.url ∉ sk.map (·.url) ∧
          it.depth = d ∧ it.parent = some p) := by
  intro links
  induction links with
  | nil =>
      intro q hq
      exact ⟨by simpa [addLinksToQueue_nil] using hq,
        fun it hit => Or.inl (by simpa [addLinksToQueue_nil] using hit)⟩
  | cons l ls ih =>
      intro q hq
      rw [addLinksToQueue_cons]
      by_cases hc : (!v.contains l && !isInQueue q l && !isSkipped sk l) = true
      · rw [if_pos hc]
        obtain ⟨hv, hqmem, hsk⟩ := (admit_iff v sk q l).mp hc
        have hq' : (queueUrls (q ++ [⟨l, d, some p⟩])).Nodup := by
          simp only [queueUrls, List.map_append, List.map_cons, List.map_nil]
          rw [List.nodup_append]
          refine ⟨hq, List.nodup_singleton l, ?_⟩
          intro a ha hb
          simp only [List.mem_singleton] at hb
          subst hb
          exact hqmem ha
        obtain ⟨h1, h2⟩ := ih (q ++ [⟨l, d, some p⟩]) hq'
        refine ⟨h1, ?_⟩
        intro it hit
        rcases h2 it hit with hin | hfresh
        · rcases List.mem_append.mp hin with hl | hr
          · exact Or.inl hl
          · simp only [List.mem_singleton] at hr
            subst hr
            exact Or.inr ⟨hv, hsk, rfl, rfl⟩
        · exact Or.inr hfresh
      · rw [if_neg hc]
        exact ih q hq

/-! Branch lemmas for a single `processQueue` iteration. -/

theorem crawlStep_visited_case (env : CrawlEnv) (it : WorkItem)
    (rest : List WorkItem) (st : CrawlState)
    (h1 : st.visited.contains it.url = true) :
    crawlStep env it rest st = { st with queue := rest } := by
  simp only [crawlStep, h1, if_true]

theorem crawlStep_depth_case (env : CrawlEnv) (it : WorkItem)
    (rest : List WorkItem) (st : CrawlState)
    (h1 : st.visited.contains it.url = false)
    (h2 : it.depth > env.options.maxDepth) :
    crawlStep env it rest st = { st with queue := rest } := by
  simp only [crawlStep, h1, Bool.false_eq_true, if_false, h2, if_true]

theorem crawlStep_robots_case (env : CrawlEnv) (it : WorkItem)
    (rest : List WorkItem) (st : CrawlState)
    (h1 : st.visited.contains it.url = false)
    (h2 : ¬ it.depth > env.options.maxDepth)
    (h3 : robotsBlocked env it.url = true) :
    crawlStep env it rest st =
      { st with
        queue := rest
        skippedUrls := st.skippedUrls ++
          [⟨it.url, "robots.txt blocked", it.parent, none⟩] } := by
  simp only [crawlStep, h1, Bool.false_eq_true, if_false, h2, h3, if_true]

theorem crawlStep_ok_case (env : CrawlEnv) (it : WorkItem)
    (rest : List WorkItem) (st : CrawlState) (s : Nat) (links : List String)
    (h1 : st.visited.contains it.url = false)
    (h2 : ¬ it.depth > env.options.maxDepth)
    (h3 : robotsBlocked env it.url = false)
    (hres : (makeRequest env.options (env.fetch it.url) 0).result =
      .ok (s, links)) :
    crawlStep env it rest st =
      { visited := st.visited ++ [it.url]
        queue := addLinksToQueue (st.visited ++ [it.url]) st.skippedUrls rest
          links (it.depth + 1) it.url
        results := st.results ++ [⟨it.url, it.depth, it.parent, links⟩]
        failedUrls := st.failedUrls
        skippedUrls := st.skippedUrls } := by
  simp only [crawlStep, h1, Bool.false_eq_true, if_false, h2, h3, hres]

theorem crawlStep_err_ignore_case (env : CrawlEnv) (it : WorkItem)
    (rest : List WorkItem) (st : CrawlState) (e : CrawlError)
    (h1 : st.visited.contains it.url = false)
    (h2 : ¬ it.depth > env.options.maxDepth)
    (h3 : robotsBlocked env it.url = false)
    (hres : (makeRequest env.options (env.fetch it.url) 0).result = .error e)
    (hir : env.options.ignoreRestrictions = true) :
    crawlStep env it rest st =
      { st with
        visited := st.visited ++ [it.url]
        queue := rest
        failedUrls := st.failedUrls ++ [⟨it.url, e.message, it.parent⟩] } := by
  simp only [crawlStep, h1, Bool.false_eq_true, if_false, h2, h3, hres, hir,
    if_true]

theorem crawlStep_err_skip_case (env : CrawlEnv) (it : WorkItem)
    (rest : List WorkItem) (st : CrawlState) (e : CrawlError) (sk0 : SkipRecord)
    (h1 : st.visited.contains it.url = false)
    (h2 : ¬ it.depth > env.options.maxDepth)
    (h3 : robotsBlocked env it.url = false)
    (hres : (makeRequest env.options (env.fetch it.url) 0).result = .error e)
    (hir : env.options.ignoreRestrictions = false)
    (hh : handleCrawlError env.options e it.url it.parent = some sk0) :
    crawlStep env it rest st =
      { st with
        visited := st.visited ++ [it.url]
        queue := rest
        skippedUrls := st.skippedUrls ++ [sk0] } := by
  simp only [crawlStep, h1, Bool.false_eq_true, if_false, h2, h3, hres, hir, hh]

theorem crawlStep_err_fail_case (env : CrawlEnv) (it : WorkItem)
    (rest : List WorkItem) (st : CrawlState) (e : CrawlError)
    (h1 : st.visited.contains it.url = false)
    (h2 : ¬ it.depth > env.options.maxDepth)
    (h3 : robotsBlocked env it.url = false)
    (hres : (makeRequest env.options (env.fetch it.url) 0).result = .error e)
    (hir : env.options.ignoreRestrictions = false)
    (hh : handleCrawlError env.options e it.url it.parent = none) :
    crawlStep env it rest st =
      { st with
        visited := st.visited ++ [it.url]
        queue := rest
        failedUrls := st.failedUrls ++ [⟨it.url, e.message, it.parent⟩] } := by
  simp only [crawlStep, h1, Bool.false_eq_true, if_false, h2, h3, hres, hir, hh]

/-- Any skip record produced by `handleCrawlError` carries the URL it was
called on. -/
theorem handleCrawlError_url (o : Options) (e : CrawlError) (url : String)
    (parent : Option String) (r : SkipRecord)
    (h : handleCrawlError o e url parent = some r) : r.url = url := by
  unfold handleCrawlError at h
  split at h
  · exact absurd h (by simp)
  · split at h
    · exact absurd h (by simp)
    · split at h
      · split at h
        · injection h with h2; subst h2; rfl
        · split at h
          · injection h with h2; subst h2; rfl
          · split at h
            · injection h with h2; subst h2; rfl
            · exact absurd h (by simp)
      · split at h
        · injection h with h2; subst h2; rfl
        · exact absurd h (by simp)

/-! The session invariant behind the at-most-one-record property. -/

/-- Invariant maintained by every iteration of the crawl loop: record URLs are
pairwise distinct across the three result lists, page and failure URLs have
been visited, and queued URLs are duplicate-free, unvisited and unskipped. -/
structure Inv (st : CrawlState) : Prop where
  recNodup : st.recordUrls.Nodup
  resVisited : ∀ u ∈ st.results.map (·.url), u ∈ st.visited
  failVisited : ∀ u ∈ st.failedUrls.map (·.url), u ∈ st.visited
  queueNodup : (queueUrls st.queue).Nodup
  queueFreshV : ∀ u ∈ queueUrls st.queue, u ∉ st.visited
  queueFreshS : ∀ u ∈ queueUrls st.queue, u ∉ st.skippedUrls.map (·.url)

/-- Inserting a fresh element anywhere preserves duplicate-freedom. -/
theorem nodup_middle_insert (X Y : List String) (u : String)
    (h : (X ++ Y).Nodup) (hu : u ∉ X ++ Y) : (X ++ u :: Y).Nodup := by
  rw [(List.perm_middle).nodup_iff]
  exact List.nodup_cons.mpr ⟨hu, h⟩

/-- One iteration of the crawl loop preserves the session invariant. -/
theorem crawlStep_inv (env : CrawlEnv) (it : WorkItem) (rest : List WorkItem)
    (st : CrawlState) (hq : st.queue = it :: rest) (h : Inv st) :
    Inv (crawlStep env it rest st) := by
  have hqn : (it.url :: queueUrls rest).Nodup := by
    have hh := h.queueNodup
    rw [hq] at hh
    simpa [queueUrls] using hh
  have hhead : it.url ∉ queueUrls rest := (List.nodup_cons.mp hqn).1
  have hrestn : (queueUrls rest).Nodup := (List.nodup_cons.mp hqn).2
  have hmemq : ∀ u ∈ queueUrls rest, u ∈ queueUrls st.queue := by
    intro u hu
    rw [hq]
    simpa [queueUrls] using Or.inr hu
  have hitq : it.url ∈ queueUrls st.queue := by
    rw [hq]
    simp [queueUrls]
  have hitV : it.url ∉ st.visited := h.queueFreshV it.url hitq
  have hitS : it.url ∉ st.skippedUrls.map (·.url) := h.queueFreshS it.url hitq
  have hrestV : ∀ u ∈ queueUrls rest, u ∉ st.visited :=
    fun u hu => h.queueFreshV u (hmemq u hu)
  have hrestS : ∀ u ∈ queueUrls rest, u ∉ st.skippedUrls.map (·.url) :=
    fun u hu => h.queueFreshS u (hmemq u hu)
  have hitR : it.url ∉ st.results.map (·.url) :=
    fun hm => hitV (h.resVisited it.url hm)
  have hitF : it.url ∉ st.failedUrls.map (·.url) :=
    fun hm => hitV (h.failVisited it.url hm)
  have hrestV' : ∀ u ∈ queueUrls rest, u ∉ st.visited ++ [it.url] := by
    intro u hu hmem
    rcases List.mem_append.mp hmem with hm | hm
    · exact hrestV u hu hm
    · simp only [List.mem_singleton] at hm
      subst hm
      exact hhead hu
  by_cases h1 : st.visited.contains it.url = true
  · rw [crawlStep_visited_case env it rest st h1]
    exact ⟨h.recNodup, h.resVisited, h.failVisited, hrestn, hrestV, hrestS⟩
  · have h1' : st.visited.contains it.url = false := by
      simpa using h1
    by_cases h2 : it.depth > env.options.maxDepth
    · rw [crawlStep_depth_case env it rest st h1' h2]
      exact ⟨h.recNodup, h.resVisited, h.failVisited, hrestn, hrestV, hrestS⟩
    · by_cases h3 : robotsBlocked env it.url = true
      · rw [crawlStep_robots_case env it rest st h1' h2 h3]
        refine ⟨?_, h.resVisited, h.failVisited, hrestn, hrestV, ?_⟩
        · have heq : ({ st with
              queue := rest
              skippedUrls := st.skippedUrls ++
                [⟨it.url, "robots.txt blocked", it.parent, none⟩] } :
                CrawlState).recordUrls =
              (st.results.map (·.url) ++ st.skippedUrls.map (·.url)) ++
                it.url :: st.failedUrls.map (·.url) := by
            simp [CrawlState.recordUrls, List.append_assoc]
          rw [heq]
          refine nodup_middle_insert _ _ _ h.recNodup ?_
          intro hmem
          rcases List.mem_append.mp hmem with hm | hm
          · rcases List.mem_append.mp hm with hm2 | hm2
            · exact hitR hm2
            · exact hitS hm2
          · exact hitF hm
        · intro u hu hmem
          simp only [List.map_append, List.map_cons, List.map_nil,
            List.mem_append, List.mem_singleton] at hmem
          rcases hmem with hm | hm
          · exact hrestS u hu hm
          · subst hm
            exact hhead hu
      · have h3' : robotsBlocked env it.url = false := by
          simpa using h3
        cases hres : (makeRequest env.options (env.fetch it.url) 0).result with
        | ok r =>
            obtain ⟨s, links⟩ := r
            rw [crawlStep_ok_case env it rest st s links h1' h2 h3' hres]
            obtain ⟨hnew_nodup, hnew_mem⟩ :=
              addLinksToQueue_spec (st.visited ++ [it.url]) st.skippedUrls
                (it.depth + 1) it.url links rest hrestn
            refine ⟨?_, ?_, ?_, hnew_nodup, ?_, ?_⟩
            · have heq : ({ visited := st.visited ++ [it.url]
                            queue := addLinksToQueue (st.visited ++ [it.url])
                              st.skippedUrls rest links (it.depth + 1) it.url
                            results := st.results ++
                              [⟨it.url, it.depth, it.parent, links⟩]
                            failedUrls := st.failedUrls
                            skippedUrls := st.skippedUrls } :
                            CrawlState).recordUrls =
                  st.results.map (·.url) ++
                    it.url :: (st.skippedUrls.map (·.url) ++
                      st.failedUrls.map (·.url)) := by
                simp [CrawlState.recordUrls, List.append_assoc]
              rw [heq]
              refine nodup_middle_insert _ _ _ ?_ ?_
              · simpa [CrawlState.recordUrls, List.append_assoc]
                  using h.recNodup
              · intro hmem
                rcases List.mem_append.mp hmem with hm | hm
                · exact hitR hm
                · rcases List.mem_append.mp hm with hm' | hm'
                  · exact hitS hm'
                  · exact hitF hm'
            · intro u hu
              simp only [List.map_append, List.map_cons, List.map_nil,
                List.mem_append, List.mem_singleton] at hu
              rcases hu with hm | hm
              · exact List.mem_append_left _ (h.resVisited u hm)
              · subst hm
                exact List.mem_append_right _ (by simp)
            · intro u hu
              exact List.mem_append_left _ (h.failVisited u hu)
            · intro u hu
              simp only [queueUrls, List.mem_map] at hu
              obtain ⟨x, hx, hxu⟩ := hu
              subst hxu
              rcases hnew_mem x hx with hin | hfresh
              · exact hrestV' x.url (by
                  simp only [queueUrls, List.mem_map]
                  exact ⟨x, hin, rfl⟩)
              · exact hfresh.1
            · intro u hu
              simp only [queueUrls, List.mem_map] at hu
              obtain ⟨x, hx, hxu⟩ := hu
              subst hxu
              rcases hnew_mem x hx with hin | hfresh
              · exact hrestS x.url (by
                  simp only [queueUrls, List.mem_map]
                  exact ⟨x, hin, rfl⟩)
              · exact hfresh.2.1
        | error e =>
            have hfailInv : Inv
                { st with
                  visited := st.visited ++ [it.url]
                  queue := rest
                  failedUrls := st.failedUrls ++
                    [⟨it.url, e.message, it.parent⟩] } := by
              refine ⟨?_, ?_, ?_, hrestn, hrestV', ?_⟩
              · have heq : ({ st with
                    visited := st.visited ++ [it.url]
                    queue := rest
                    failedUrls := st.failedUrls ++
                      [⟨it.url, e.message, it.parent⟩] } :
                      CrawlState).recordUrls =
                    (st.results.map (·.url) ++ st.skippedUrls.map (·.url) ++
                      st.failedUrls.map (·.url)) ++ it.url :: [] := by
                  simp [CrawlState.recordUrls, List.append_assoc]
                rw [heq]
                refine nodup_middle_insert _ _ _
                  (by simpa [CrawlState.recordUrls] using h.recNodup) ?_
                intro hmem
                rcases List.mem_append.mp hmem with hm | hm
                · rcases List.mem_append.mp hm with hm2 | hm2
                  · rcases List.mem_append.mp hm2 with hm3 | hm3
                    · exact hitR hm3
                    · exact hitS hm3
                  · exact hitF hm2
                · simp at hm
              · intro u hu
                exact List.mem_append_left _ (h.resVisited u hu)
              · intro u hu
                simp only [List.map_append, List.map_cons, List.map_nil,
                  List.mem_append, List.mem_singleton] at hu
                rcases hu with hm | hm
                · exact List.mem_append_left _ (h.failVisited u hm)
                · subst hm
                  exact List.mem_append_right _ (by simp)
              · exact hrestS
            by_cases hir : env.options.ignoreRestrictions = true
            · rw [crawlStep_err_ignore_case env it rest st e h1' h2 h3' hres hir]
              exact hfailInv
            · have hir' : env.options.ignoreRestrictions = false := by
                simpa using hir
              cases hh : handleCrawlError env.options e it.url it.parent with
              | none =>
                  rw [crawlStep_err_fail_case env it rest st e h1' h2 h3' hres
                    hir' hh]
                  exact hfailInv
              | some sk0 =>
                  rw [crawlStep_err_skip_case env it rest st e sk0 h1' h2 h3'
                    hres hir' hh]
                  have hsk0 : sk0.url = it.url :=
                    handleCrawlError_url env.options e it.url it.parent sk0 hh
                  refine ⟨?_, ?_, ?_, hrestn, hrestV', ?_⟩
                  · have heq : ({ st with
                        visited := st.visited ++ [it.url]
                        queue := rest
                        skippedUrls := st.skippedUrls ++ [sk0] } :
                          CrawlState).recordUrls =
                        (st.results.map (·.url) ++ st.skippedUrls.map (·.url)) ++
                          sk0.url :: st.failedUrls.map (·.url) := by
                      simp [CrawlState.recordUrls, List.append_assoc]
                    rw [heq, hsk0]
                    refine nodup_middle_insert _ _ _ h.recNodup ?_
                    intro hmem
                    rcases List.mem_append.mp hmem with hm | hm
                    · rcases List.mem_append.mp hm with hm2 | hm2
                      · exact hitR hm2
                      · exact hitS hm2
                    · exact hitF hm
                  · intro u hu
                    exact List.mem_append_left _ (h.resVisited u hu)
                  · intro u hu
                    exact List.mem_append_left _ (h.failVisited u hu)
                  · intro u hu hmem
                    simp only [List.map_append, List.map_cons, List.map_nil,
                      List.mem_append, List.mem_singleton] at hmem
                    rcases hmem with hm | hm
                    · exact hrestS u hu hm
                    · rw [hsk0] at hm
                      subst hm
                      exact hhead hu

/-- The crawl loop preserves the session invariant for any fuel. -/
theorem processQueue_inv (env : CrawlEnv) :
    ∀ fuel st, Inv st → Inv (processQueue env fuel st) := by
  intro fuel
  induction fuel with
  | zero => intro st h; simpa [processQueue] using h
  | succ fuel ih =>
      intro st h
      rw [processQueue]
      by_cases hp : st.results.length < env.options.maxPages
      · simp only [if_pos hp]
        cases hq : st.queue with
        | nil => exact h
        | cons it rest => exact ih _ (crawlStep_inv env it rest st hq h)
      · simp only [if_neg hp]
        exact h

/-- The freshly seeded session satisfies the invariant. -/
theorem initState_inv (seed : String) : Inv (initState seed) := by
  refine ⟨?_, ?_, ?_, ?_, ?_, ?_⟩ <;>
    simp [initState, CrawlState.recordUrls, queueUrls]

/-- With `ignoreRestrictions`, one loop iteration never touches the skip
list. -/
theorem crawlStep_skipped_ignore (env : CrawlEnv) (it : WorkItem)
    (rest : List WorkItem) (st : CrawlState)
    (hir : env.options.ignoreRestrictions = true) :
    (crawlStep env it rest st).skippedUrls = st.skippedUrls := by
  have hrb : robotsBlocked env it.url = false := by
    simp [robotsBlocked, hir]
  by_cases h1 : st.visited.contains it.url = true
  · rw [crawlStep_visited_case env it rest st h1]
  · have h1' : st.visited.contains it.url = false := by simpa using h1
    by_cases h2 : it.depth > env.options.maxDepth
    · rw [crawlStep_depth_case env it rest st h1' h2]
    · cases hres : (makeRequest env.options (env.fetch it.url) 0).result with
      | ok r =>
          obtain ⟨s, links⟩ := r
          rw [crawlStep_ok_case env it rest st s links h1' h2 hrb hres]
      | error e =>
          rw [crawlStep_err_ignore_case env it rest st e h1' h2 hrb hres hir]

/-- With `ignoreRestrictions`, the whole crawl loop never touches the skip
list. -/
theorem processQueue_skipped_ignore (env : CrawlEnv)
    (hir : env.options.ignoreRestrictions = true) :
    ∀ fuel st, (processQueue env fuel st).skippedUrls = st.skippedUrls := by
  intro fuel
  induction fuel with
  | zero => intro st; rfl
  | succ fuel ih =>
      intro st
      rw [processQueue]
      by_cases hp : st.results.length < env.options.maxPages
      · simp only [if_pos hp]
        cases hq : st.queue with
        | nil => rfl
        | cons it rest =>
            rw [ih (crawlStep env it rest st),
              crawlStep_skipped_ignore env it rest st hir]
      · simp only [if_neg hp]

/-- C1: in every crawl session (any options, fetch world and robots rules, for
any number of loop iterations from the seeded initial state) a URL identity
appears in at most one of the three result lists, and a URL holding a terminal
record is never in the pending frontier, hence never enqueued or processed
again. -/
theorem claim1_records_disjoint (env : CrawlEnv) (seed : String) (fuel : Nat) :
    ((processQueue env fuel (initState seed)).recordUrls).Nodup ∧
    ∀ u ∈ (processQueue env fuel (initState seed)).recordUrls,
      u ∉ queueUrls (processQueue env fuel (initState seed)).queue := by
  have hinv := processQueue_inv env fuel (initState seed) (initState_inv seed)
  refine ⟨hinv.recNodup, ?_⟩
  intro u hu hqmem
  simp only [CrawlState.recordUrls] at hu
  rcases List.mem_append.mp hu with hm | hm
  · rcases List.mem_append.mp hm with hm2 | hm2
    · exact hinv.queueFreshV u hqmem (hinv.resVisited u hm2)
    · exact hinv.queueFreshS u hqmem hm2
  · exact hinv.queueFreshV u hqmem (hinv.failVisited u hm)

/-! Facts about `validateStatus` and `noRetryHit` used by the claims. -/

theorem validateStatus_plain_lt500 (o : Options) (s : Nat)
    (hir : o.ignoreRestrictions = false) (hsu : o.skipUnauthorized = false)
    (h3 : 300 ≤ s) (h5 : s < 500) : validateStatus o s = true := by
  have hc : ¬(200 ≤ s ∧ s < 300) := by omega
  simp [validateStatus, hir, hsu, hc, h5]

theorem validateStatus_plain_ge500 (o : Options) (s : Nat)
    (hir : o.ignoreRestrictions = false) (hsu : o.skipUnauthorized = false)
    (h : 500 ≤ s) : validateStatus o s = false := by
  have hc : ¬(200 ≤ s ∧ s < 300) := by omega
  have hc2 : ¬ s < 500 := by omega
  simp [validateStatus, hir, hsu, hc, hc2]

theorem validateStatus_skip403 (o : Options)
    (hir : o.ignoreRestrictions = false) (hsu : o.skipUnauthorized = true) :
    validateStatus o 403 = false := by
  simp [validateStatus, hir, hsu]

theorem validateStatus_ignore_accepts (o : Options) (s : Nat)
    (hir : o.ignoreRestrictions = true) (h2 : 200 ≤ s) (h6 : s < 600) :
    validateStatus o s = true := by
  simp [validateStatus, hir, h2, h6]

theorem noRetryHit_plain (o : Options) (m : String) (s : Nat)
    (hsu : o.skipUnauthorized = false) (h4 : s ≠ 404) (h10 : s ≠ 410) :
    noRetryHit o ⟨m, some s⟩ = false := by
  simp only [noRetryHit, noRetryStatuses, hsu, Bool.false_eq_true, if_false]
  rw [contains_false_iff]
  simp
  omega

theorem noRetryHit_skip403 (o : Options) (m : String)
    (hsu : o.skipUnauthorized = true) :
    noRetryHit o ⟨m, some 403⟩ = true := by
  simp only [noRetryHit, noRetryStatuses, hsu, if_true]
  rw [contains_true_iff]
  simp

/-! Concrete crawl environments used in counterexamples and witnesses. -/

/-- Options with both `skipUnauthorized` and `ignoreRestrictions` false. -/
def plainOptions : Options := ⟨50, 3, 3, false, false, false⟩

/-- A world whose server answers every attempt at every URL with status 403. -/
def envAccept403 : CrawlEnv :=
  ⟨plainOptions, fun _ _ => .response 403 [], none⟩

/-- A world whose server answers every attempt at every URL with status 500. -/
def envFail500 : CrawlEnv :=
  ⟨plainOptions, fun _ _ => .response 500 [], none⟩

/-- C2 counterexample: with `skipUnauthorized = false` and
`ignoreRestrictions = false`, a fetch answered 403 is not treated as an error
at all — `validateStatus` accepts every status below 500, so the URL is
recorded as a page with zero retries, contradicting the claimed
retry-then-Failed handling (the same holds for 401, 404, 407, 410, 429, 451).
-/
theorem claim2_counterexample :
    makeRequest envAccept403.options (envAccept403.fetch "a") 0 =
      ⟨.ok (403, []), []⟩ ∧
    (crawlStep envAccept403 ⟨"a", 0, none⟩ [] (initState "a")).results =
      [⟨"a", 0, none, []⟩] ∧
    (crawlStep envAccept403 ⟨"a", 0, none⟩ [] (initState "a")).failedUrls =
      [] ∧
    (crawlStep envAccept403 ⟨"a", 0, none⟩ [] (initState "a")).skippedUrls =
      [] :=
  ⟨rfl, rfl, rfl, rfl⟩

/-- C2 (amended): with `skipUnauthorized = false` and
`ignoreRestrictions = false`, of the authorization-class and terminal-class
statuses only those at or above 500 ({500, 502, 503, 504}) are treated as a
generic error — retried through the full budget with delays `1000 * n`, then
recorded as Failed; the sub-500 ones ({401, 403, 404, 407, 410, 429, 451}) are
accepted outright and recorded as pages with zero retries. -/
theorem claim2_amended (env : CrawlEnv) (it : WorkItem) (rest : List WorkItem)
    (st : CrawlState) (s : Nat) (links : List String)
    (hir : env.options.ignoreRestrictions = false)
    (hsu : env.options.skipUnauthorized = false)
    (hs : s ∈ authRelatedCodes ∨ s ∈ skipCodes)
    (hfetch : ∀ i, env.fetch it.url i = .response s links)
    (hv : st.visited.contains it.url = false)
    (hd : ¬ it.depth > env.options.maxDepth)
    (hrob : robotsBlocked env it.url = false) :
    (s < 500 →
      makeRequest env.options (env.fetch it.url) 0 = ⟨.ok (s, links), []⟩ ∧
      (crawlStep env it rest st).results =
        st.results ++ [⟨it.url, it.depth, it.parent, links⟩] ∧
      (crawlStep env it rest st).failedUrls = st.failedUrls ∧
      (crawlStep env it rest st).skippedUrls = st.skippedUrls) ∧
    (500 ≤ s →
      makeRequest env.options (env.fetch it.url) 0 =
        ⟨.error ⟨axiosStatusMessage s, some s⟩,
         (List.range env.options.retries).map fun i => 1000 * (i + 1)⟩ ∧
      (crawlStep env it rest st).failedUrls =
        st.failedUrls ++ [⟨it.url, axiosStatusMessage s, it.parent⟩] ∧
      (crawlStep env it rest st).results = st.results ∧
      (crawlStep env it rest st).skippedUrls = st.skippedUrls) := by
  have h300 : 300 ≤ s := by
    rcases hs with h | h
    · simp only [authRelatedCodes, List.mem_cons, List.mem_singleton,
        List.not_mem_nil, or_false] at h
      rcases h with rfl | rfl | rfl | rfl | rfl <;> norm_num
    · simp only [skipCodes, List.mem_cons, List.mem_singleton,
        List.not_mem_nil, or_false] at h
      rcases h with rfl | rfl | rfl | rfl | rfl | rfl <;> norm_num
  constructor
  · intro h5
    have hvs : validateStatus env.options s = true :=
      validateStatus_plain_lt500 env.options s hir hsu h300 h5
    have hout : attemptOutcome env.options (env.fetch it.url 0) =
        .ok (s, links) := by
      rw [hfetch 0]
      simp [attemptOutcome, hvs]
    have hmr := makeRequest_ok env.options (env.fetch it.url) (s, links) hout
    refine ⟨hmr, ?_, ?_, ?_⟩ <;>
      rw [crawlStep_ok_case env it rest st s links hv hd hrob (by rw [hmr])]
  · intro h5
    have hvs : validateStatus env.options s = false :=
      validateStatus_plain_ge500 env.options s hir hsu h5
    have hout : ∀ i, attemptOutcome env.options (env.fetch it.url i) =
        .error ⟨axiosStatusMessage s, some s⟩ := by
      intro i
      rw [hfetch i]
      simp [attemptOutcome, hvs]
    have hnr : ∀ i : Nat, env.options.ignoreRestrictions = true ∨
        noRetryHit env.options ⟨axiosStatusMessage s, some s⟩ = false :=
      fun _ => Or.inr
        (noRetryHit_plain env.options (axiosStatusMessage s) s hsu
          (by omega) (by omega))
    have hmr := makeRequest_allError env.options (env.fetch it.url)
      (fun _ => ⟨axiosStatusMessage s, some s⟩) hout hnr
    have hh : handleCrawlError env.options ⟨axiosStatusMessage s, some s⟩
        it.url it.parent = none := by
      simp [handleCrawlError, hir, hsu]
    refine ⟨hmr, ?_, ?_, ?_⟩ <;>
      rw [crawlStep_err_fail_case env it rest st ⟨axiosStatusMessage s, some s⟩
        hv hd hrob (by rw [hmr]) hir hh]

/-- C2 witness: the amended claim instantiated on a concrete world answering
500 everywhere, with the default options (retries = 3). -/
theorem claim2_amended_witness :
    makeRequest envFail500.options (envFail500.fetch "a") 0 =
      ⟨.error ⟨axiosStatusMessage 500, some 500⟩,
       (List.range envFail500.options.retries).map fun i => 1000 * (i + 1)⟩ ∧
    (crawlStep envFail500 ⟨"a", 0, none⟩ [] (initState "a")).failedUrls =
      (initState "a").failedUrls ++ [⟨"a", axiosStatusMessage 500, none⟩] ∧
    (crawlStep envFail500 ⟨"a", 0, none⟩ [] (initState "a")).results =
      (initState "a").results ∧
    (crawlStep envFail500 ⟨"a", 0, none⟩ [] (initState "a")).skippedUrls =
      (initState "a").skippedUrls :=
  (claim2_amended envFail500 ⟨"a", 0, none⟩ [] (initState "a") 500 []
    rfl rfl (Or.inr (by decide)) (fun _ => rfl) rfl (by decide) rfl).2
    (by omega)

/-- Options with `ignoreRestrictions` set (the default of `crawler.js`). -/
def unrestrictedOptions : Options := ⟨50, 3, 3, false, false, true⟩

/-- Unrestricted mode against a server answering 404 everywhere. -/
def envIgnore404 : CrawlEnv :=
  ⟨unrestrictedOptions, fun _ _ => .response 404 [], none⟩

/-- Unrestricted mode against a network that always fails at transport level. -/
def envNet : CrawlEnv :=
  ⟨unrestrictedOptions, fun _ _ => .transportError "socket hang up", none⟩

/-- C4 counterexample: with `ignoreRestrictions = true`, a response with
status 404 — inside [200,600) — is accepted by `validateStatus`, so it is not
retried at all and becomes a page record, not a failure. -/
theorem claim4_counterexample :
    makeRequest envIgnore404.options (envIgnore404.fetch "a") 0 =
      ⟨.ok (404, []), []⟩ ∧
    (crawlStep envIgnore404 ⟨"a", 0, none⟩ [] (initState "a")).results =
      [⟨"a", 0, none, []⟩] ∧
    (crawlStep envIgnore404 ⟨"a", 0, none⟩ [] (initState "a")).failedUrls =
      [] :=
  ⟨rfl, rfl, rfl⟩

/-- C4 (amended): with `ignoreRestrictions = true`, every response with status
in [200,600) is accepted as a page with zero retries; only transport
exceptions (and statuses outside [200,600)) are retried, with delay `1000 * n`
before the n-th retry, and after exhaustion the URL is recorded as Failed,
never Skipped. -/
theorem claim4_amended (env : CrawlEnv) (it : WorkItem) (rest : List WorkItem)
    (st : CrawlState)
    (hir : env.options.ignoreRestrictions = true)
    (hv : st.visited.contains it.url = false)
    (hd : ¬ it.depth > env.options.maxDepth) :
    (∀ s links, env.fetch it.url 0 = .response s links → 200 ≤ s → s < 600 →
      makeRequest env.options (env.fetch it.url) 0 = ⟨.ok (s, links), []⟩ ∧
      (crawlStep env it rest st).results =
        st.results ++ [⟨it.url, it.depth, it.parent, links⟩] ∧
      (crawlStep env it rest st).skippedUrls = st.skippedUrls) ∧
    (∀ msg, (∀ i, env.fetch it.url i = .transportError msg) →
      makeRequest env.options (env.fetch it.url) 0 =
        ⟨.error ⟨msg, none⟩,
         (List.range env.options.retries).map fun i => 1000 * (i + 1)⟩ ∧
      (crawlStep env it rest st).failedUrls =
        st.failedUrls ++ [⟨it.url, msg, it.parent⟩] ∧
      (crawlStep env it rest st).skippedUrls = st.skippedUrls) := by
  have hrob : robotsBlocked env it.url = false := by
    simp [robotsBlocked, hir]
  constructor
  · intro s links hfetch h2 h6
    have hvs : validateStatus env.options s = true :=
      validateStatus_ignore_accepts env.options s hir h2 h6
    have hout : attemptOutcome env.options (env.fetch it.url 0) =
        .ok (s, links) := by
      rw [hfetch]
      simp [attemptOutcome, hvs]
    have hmr := makeRequest_ok env.options (env.fetch it.url) (s, links) hout
    refine ⟨hmr, ?_, ?_⟩ <;>
      rw [crawlStep_ok_case env it rest st s links hv hd hrob (by rw [hmr])]
  · intro msg hfetch
    have hout : ∀ i, attemptOutcome env.options (env.fetch it.url i) =
        .error ⟨msg, none⟩ := by
      intro i
      rw [hfetch i]
      rfl
    have hmr := makeRequest_allError env.options (env.fetch it.url)
      (fun _ => ⟨msg, none⟩) hout (fun _ => Or.inl hir)
    refine ⟨hmr, ?_, ?_⟩ <;>
      rw [crawlStep_err_ignore_case env it rest st ⟨msg, none⟩ hv hd hrob
        (by rw [hmr]) hir]

/-- C4 witness: the amended claim instantiated on a concrete always-failing
transport world in unrestricted mode (retries = 3). -/
theorem claim4_amended_witness :
    makeRequest envNet.options (envNet.fetch "a") 0 =
      ⟨.error ⟨"socket hang up", none⟩,
       (List.range envNet.options.retries).map fun i => 1000 * (i + 1)⟩ ∧
    (crawlStep envNet ⟨"a", 0, none⟩ [] (initState "a")).failedUrls =
      (initState "a").failedUrls ++ [⟨"a", "socket hang up", none⟩] ∧
    (crawlStep envNet ⟨"a", 0, none⟩ [] (initState "a")).skippedUrls =
      (initState "a").skippedUrls :=
  (claim4_amended envNet ⟨"a", 0, none⟩ [] (initState "a") rfl rfl
    (by decide)).2 "socket hang up" (fun _ => rfl)

/-- Custom mode of the README: skip unauthorized URLs, restrictions active. -/
def skipOptions : Options := ⟨50, 3, 3, false, true, false⟩

/-- Skip-unauthorized mode against a server answering 403 everywhere. -/
def envSkip403 : CrawlEnv :=
  ⟨skipOptions, fun _ _ => .response 403 [], none⟩

/-- C5 counterexample: the recorded reason string uses an ASCII hyphen,
"Forbidden - Access denied", which differs from the claimed
"Forbidden – Access denied" (en dash); the rest of the claimed behaviour
holds. -/
theorem claim5_counterexample :
    (crawlStep envSkip403 ⟨"a", 0, none⟩ [] (initState "a")).skippedUrls =
      [⟨"a", "Forbidden - Access denied", none, some 403⟩] ∧
    "Forbidden - Access denied" ≠ "Forbidden – Access denied" :=
  ⟨rfl, by decide⟩

/-- C5 (amended): with `skipUnauthorized = true` and
`ignoreRestrictions = false`, a fetch answered 403 performs zero retries and
the URL is recorded as Skipped with reason "Forbidden - Access denied" (ASCII
hyphen) and statusCode 403; no page and no failure is recorded. -/
theorem claim5_amended (env : CrawlEnv) (it : WorkItem) (rest : List WorkItem)
    (st : CrawlState) (links : List String)
    (hsu : env.options.skipUnauthorized = true)
    (hir : env.options.ignoreRestrictions = false)
    (hfetch : env.fetch it.url 0 = .response 403 links)
    (hv : st.visited.contains it.url = false)
    (hd : ¬ it.depth > env.options.maxDepth)
    (hrob : robotsBlocked env it.url = false) :
    (makeRequest env.options (env.fetch it.url) 0).delays = [] ∧
    (crawlStep env it rest st).skippedUrls =
      st.skippedUrls ++
        [⟨it.url, "Forbidden - Access denied", it.parent, some 403⟩] ∧
    (crawlStep env it rest st).results = st.results ∧
    (crawlStep env it rest st).failedUrls = st.failedUrls := by
  have hvs : validateStatus env.options 403 = false :=
    validateStatus_skip403 env.options hir hsu
  have hout : attemptOutcome env.options (env.fetch it.url 0) =
      .error ⟨axiosStatusMessage 403, some 403⟩ := by
    rw [hfetch]
    simp [attemptOutcome, hvs]
  have hhit : noRetryHit env.options ⟨axiosStatusMessage 403, some 403⟩ =
      true := noRetryHit_skip403 env.options (axiosStatusMessage 403) hsu
  have hmr := makeRequest_noRetry env.options (env.fetch it.url)
    ⟨axiosStatusMessage 403, some 403⟩ hout hir hhit
  have hh : handleCrawlError env.options ⟨axiosStatusMessage 403, some 403⟩
      it.url it.parent =
      some ⟨it.url, "Forbidden - Access denied", it.parent, some 403⟩ := by
    simp only [handleCrawlError, hir, hsu, Bool.false_eq_true, if_false,
      Bool.not_true]
    rw [if_pos (by rw [contains_true_iff]; simp [authRelatedCodes])]
    rfl
  refine ⟨by rw [hmr], ?_, ?_, ?_⟩ <;>
    rw [crawlStep_err_skip_case env it rest st
      ⟨axiosStatusMessage 403, some 403⟩
      ⟨it.url, "Forbidden - Access denied", it.parent, some 403⟩
      hv hd hrob (by rw [hmr]) hir hh]

/-- C5 witness: the amended claim instantiated on the concrete 403 world. -/
theorem claim5_amended_witness :
    (makeRequest envSkip403.options (envSkip403.fetch "a") 0).delays = [] ∧
    (crawlStep envSkip403 ⟨"a", 0, none⟩ [] (initState "a")).skippedUrls =
      (initState "a").skippedUrls ++
        [⟨"a", "Forbidden - Access denied", none, some 403⟩] ∧
    (crawlStep envSkip403 ⟨"a", 0, none⟩ [] (initState "a")).results =
      (initState "a").results ∧
    (crawlStep envSkip403 ⟨"a", 0, none⟩ [] (initState "a")).failedUrls =
      (initState "a").failedUrls :=
  claim5_amended envSkip403 ⟨"a", 0, none⟩ [] (initState "a") [] rfl rfl rfl
    rfl (by decide) rfl

/-- C6: with `skipUnauthorized = false`, `ignoreRestrictions = false` and a
retry budget of 3, a fetch whose attempts all raise an error carrying status
500 performs exactly 3 retries with the delay before the n-th retry equal to
1000 * n ms — the sequence 1000, 2000, 3000 — after which the URL is recorded
as Failed (no page, no skip). -/
theorem claim6_retry_budget (env : CrawlEnv) (it : WorkItem)
    (rest : List WorkItem) (st : CrawlState) (links : List String)
    (hir : env.options.ignoreRestrictions = false)
    (hsu : env.options.skipUnauthorized = false)
    (hret : env.options.retries = 3)
    (hfetch : ∀ i, env.fetch it.url i = .response 500 links)
    (hv : st.visited.contains it.url = false)
    (hd : ¬ it.depth > env.options.maxDepth)
    (hrob : robotsBlocked env it.url = false) :
    (makeRequest env.options (env.fetch it.url) 0).delays =
      [1000, 2000, 3000] ∧
    (makeRequest env.options (env.fetch it.url) 0).result =
      .error ⟨axiosStatusMessage 500, some 500⟩ ∧
    (crawlStep env it rest st).failedUrls =
      st.failedUrls ++ [⟨it.url, axiosStatusMessage 500, it.parent⟩] ∧
    (crawlStep env it rest st).results = st.results ∧
    (crawlStep env it rest st).skippedUrls = st.skippedUrls := by
  have hvs : validateStatus env.options 500 = false :=
    validateStatus_plain_ge500 env.options 500 hir hsu (by omega)
  have hout : ∀ i, attemptOutcome env.options (env.fetch it.url i) =
      .error ⟨axiosStatusMessage 500, some 500⟩ := by
    intro i
    rw [hfetch i]
    simp [attemptOutcome, hvs]
  have hnr : ∀ i : Nat, env.options.ignoreRestrictions = true ∨
      noRetryHit env.options ⟨axiosStatusMessage 500, some 500⟩ = false :=
    fun _ => Or.inr
      (noRetryHit_plain env.options (axiosStatusMessage 500) 500 hsu
        (by omega) (by omega))
  have hmr := makeRequest_allError env.options (env.fetch it.url)
    (fun _ => ⟨axiosStatusMessage 500, some 500⟩) hout hnr
  have hh : handleCrawlError env.options ⟨axiosStatusMessage 500, some 500⟩
      it.url it.parent = none := by
    simp [handleCrawlError, hir, hsu]
  refine ⟨?_, ?_, ?_, ?_, ?_⟩
  · rw [hmr, hret]
    decide
  · rw [hmr]
  all_goals
    rw [crawlStep_err_fail_case env it rest st
      ⟨axiosStatusMessage 500, some 500⟩ hv hd hrob (by rw [hmr]) hir hh]

/-- C6 witness: the concrete always-500 world with the default options
(retries = 3, both mode flags false). -/
theorem claim6_retry_budget_witness :
    (makeRequest envFail500.options (envFail500.fetch "a") 0).delays =
      [1000, 2000, 3000] ∧
    (makeRequest envFail500.options (envFail500.fetch "a") 0).result =
      .error ⟨axiosStatusMessage 500, some 500⟩ ∧
    (crawlStep envFail500 ⟨"a", 0, none⟩ [] (initState "a")).failedUrls =
      (initState "a").failedUrls ++ [⟨"a", axiosStatusMessage 500, none⟩] ∧
    (crawlStep envFail500 ⟨"a", 0, none⟩ [] (initState "a")).results =
      (initState "a").results ∧
    (crawlStep envFail500 ⟨"a", 0, none⟩ [] (initState "a")).skippedUrls =
      (initState "a").skippedUrls :=
  claim6_retry_budget envFail500 ⟨"a", 0, none⟩ [] (initState "a") [] rfl rfl
    rfl (fun _ => rfl) rfl (by decide) rfl

/-- A concrete successful site: the seed links to a and b, a links to c. -/
def fetchTree : String → Nat → RawResult := fun u _ =>
  if u = "seed" then .response 200 ["a", "b"]
  else if u = "a" then .response 200 ["c"]
  else if u = "b" then .response 200 []
  else if u = "c" then .response 200 []
  else .transportError "network"

/-- Unrestricted mode with `maxDepth = 0` over the concrete site. -/
def envDepth : CrawlEnv := ⟨⟨5, 0, 3, false, false, true⟩, fetchTree, none⟩

/-- C3 counterexample: with `ignoreRestrictions = true` and `maxDepth = 0`,
the links a and b are enqueued by the seed page, then dequeued and silently
dropped by the depth check — they end in no result list at all, so not every
dequeued URL becomes a page or failure record (the skip list does stay
empty). -/
theorem claim3_counterexample :
    (processQueue envDepth 1 (initState "seed")).queue =
      [⟨"a", 1, some "seed"⟩, ⟨"b", 1, some "seed"⟩] ∧
    (processQueue envDepth 5 (initState "seed")).queue = [] ∧
    (processQueue envDepth 5 (initState "seed")).recordUrls = ["seed"] ∧
    (processQueue envDepth 5 (initState "seed")).skippedUrls = [] := by
  decide

/-- C3 (amended): when `ignoreRestrictions` is true the skip list never grows
(so it is empty at the end of every session started with an empty skip list),
no robots check ever blocks a URL, and every dequeued URL that is unvisited
and within the depth limit ends as a page record or a failure record; dequeued
items beyond the depth limit (or already visited) are dropped with no record.
-/
theorem claim3_amended (env : CrawlEnv)
    (hir : env.options.ignoreRestrictions = true) :
    (∀ fuel st, (processQueue env fuel st).skippedUrls = st.skippedUrls) ∧
    (∀ url, robotsBlocked env url = false) ∧
    (∀ it rest st, st.visited.contains it.url = false →
      ¬ it.depth > env.options.maxDepth →
      ((∃ links, (crawlStep env it rest st).results =
          st.results ++ [⟨it.url, it.depth, it.parent, links⟩]) ∨
        (∃ msg, (crawlStep env it rest st).failedUrls =
          st.failedUrls ++ [⟨it.url, msg, it.parent⟩]))) := by
  refine ⟨processQueue_skipped_ignore env hir, ?_, ?_⟩
  · intro url
    simp [robotsBlocked, hir]
  · intro it rest st h1 h2
    have hrb : robotsBlocked env it.url = false := by
      simp [robotsBlocked, hir]
    cases hres : (makeRequest env.options (env.fetch it.url) 0).result with
    | ok r =>
        obtain ⟨s, links⟩ := r
        exact Or.inl ⟨links,
          by rw [crawlStep_ok_case env it rest st s links h1 h2 hrb hres]⟩
    | error e =>
        exact Or.inr ⟨e.message,
          by rw [crawlStep_err_ignore_case env it rest st e h1 h2 hrb hres
            hir]⟩

/-- C3 witness: the amended claim instantiated on the concrete depth-limited
unrestricted session. -/
theorem claim3_amended_witness :
    (processQueue envDepth 5 (initState "seed")).skippedUrls =
      (initState "seed").skippedUrls :=
  (claim3_amended envDepth rfl).1 5 (initState "seed")

/-- Unrestricted mode with `maxPages = 1` and `maxDepth = 0`. -/
def envCap : CrawlEnv := ⟨⟨1, 0, 3, false, false, true⟩, fetchTree, none⟩

/-- C7 counterexample: `addLinksToQueue` checks neither the depth limit nor
the page cap.  With `maxPages = 1` and `maxDepth = 0`, the iteration that
records the seed page (reaching the cap) still admits both discovered links,
each at depth 1 > maxDepth — the frontier grows after the page cap is
reached. -/
theorem claim7_counterexample :
    (processQueue envCap 1 (initState "seed")).results.length =
      envCap.options.maxPages ∧
    (processQueue envCap 1 (initState "seed")).queue =
      [⟨"a", 1, some "seed"⟩, ⟨"b", 1, some "seed"⟩] ∧
    envCap.options.maxDepth = 0 := by
  decide

/-- C7 (amended): admission checks exactly that the URL is not visited, not
already queued and not skipped — `addLinksToQueue` consults neither `maxDepth`
nor `maxPages`; the depth bound is enforced only when an item is dequeued
(dropped with no record), and the page cap only by the loop condition. -/
theorem claim7_amended (v : List String) (sk : List SkipRecord)
    (q : List WorkItem) (link : String) (d : Nat) (p : String) (env : CrawlEnv)
    (it : WorkItem) (rest : List WorkItem) (st : CrawlState)
    (hv : st.visited.contains it.url = false)
    (hd : it.depth > env.options.maxDepth) :
    addLinksToQueue v sk q [link] d p =
      (if !v.contains link && !isInQueue q link && !isSkipped sk link
       then q ++ [⟨link, d, some p⟩] else q) ∧
    crawlStep env it rest st = { st with queue := rest } :=
  ⟨rfl, crawlStep_depth_case env it rest st hv hd⟩

/-- C7 witness: the amended claim instantiated on a fresh link at depth 5 and
on the concrete over-depth dequeue. -/
theorem claim7_amended_witness :
    addLinksToQueue [] [] [] ["x"] 5 "p" =
      (if !([] : List String).contains "x" && !isInQueue [] "x" &&
          !isSkipped [] "x"
       then ([] : List WorkItem) ++ [⟨"x", 5, some "p"⟩] else []) ∧
    crawlStep envCap ⟨"a", 1, some "seed"⟩ [] (initState "seed") =
      { initState "seed" with queue := [] } :=
  claim7_amended [] [] [] "x" 5 "p" envCap ⟨"a", 1, some "seed"⟩ []
    (initState "seed") rfl (by decide)

/-- Respectful mode whose robots rules disallow every URL. -/
def envRobots : CrawlEnv :=
  ⟨⟨50, 3, 3, true, false, false⟩, fetchTree, some fun _ => false⟩

/-- C8 counterexample: the seed is dequeued and the robots check runs and
records a skip, yet the visited set stays empty — the URL is not marked
visited upon dequeue, and not before the robots check. -/
theorem claim8_counterexample :
    (processQueue envRobots 1 (initState "seed")).visited = [] ∧
    (processQueue envRobots 1 (initState "seed")).skippedUrls =
      [⟨"seed", "robots.txt blocked", none, none⟩] ∧
    (processQueue envRobots 1 (initState "seed")).queue = [] := by
  decide

/-- C8 (amended): a dequeued URL is marked visited inside `crawlPage`, after
the visited/depth/robots guards but before the fetch outcome is examined: if
the robots check does not block it, the URL is in the visited set afterwards
whatever the fetch does; if robots blocks it, the visited set is unchanged. -/
theorem claim8_amended (env : CrawlEnv) (it : WorkItem) (rest : List WorkItem)
    (st : CrawlState)
    (hv : st.visited.contains it.url = false)
    (hd : ¬ it.depth > env.options.maxDepth) :
    (robotsBlocked env it.url = false →
      it.url ∈ (crawlStep env it rest st).visited) ∧
    (robotsBlocked env it.url = true →
      (crawlStep env it rest st).visited = st.visited) := by
  constructor
  · intro hrb
    cases hres : (makeRequest env.options (env.fetch it.url) 0).result with
    | ok r =>
        obtain ⟨s, links⟩ := r
        rw [crawlStep_ok_case env it rest st s links hv hd hrb hres]
        simp
    | error e =>
        by_cases hir : env.options.ignoreRestrictions = true
        · rw [crawlStep_err_ignore_case env it rest st e hv hd hrb hres hir]
          simp
        · have hir' : env.options.ignoreRestrictions = false := by
            simpa using hir
          cases hh : handleCrawlError env.options e it.url it.parent with
          | none =>
              rw [crawlStep_err_fail_case env it rest st e hv hd hrb hres
                hir' hh]
              simp
          | some sk0 =>
              rw [crawlStep_err_skip_case env it rest st e sk0 hv hd hrb hres
                hir' hh]
              simp
  · intro hrb
    rw [crawlStep_robots_case env it rest st hv hd hrb]

/-- C8 witness: the amended claim instantiated on the all-blocking robots
world at the seed. -/
theorem claim8_amended_witness :
    (robotsBlocked envRobots "seed" = false →
      "seed" ∈
        (crawlStep envRobots ⟨"seed", 0, none⟩ [] (initState "seed")).visited) ∧
    (robotsBlocked envRobots "seed" = true →
      (crawlStep envRobots ⟨"seed", 0, none⟩ [] (initState "seed")).visited =
        (initState "seed").visited) :=
  claim8_amended envRobots ⟨"seed", 0, none⟩ [] (initState "seed") rfl
    (by decide)

/-- C9: the frontier is a FIFO — every iteration removes the head and only
appends newly admitted links after the remaining queue — and on the concrete
scenario (seed at depth 0 with children a, b and grandchild c under a, all
fetches succeeding) the completion order is seed, a, b, c: c is never
processed before b. -/
theorem claim9_fifo_order :
    (∀ env it rest st,
      ∃ tail, (crawlStep env it rest st).queue = rest ++ tail) ∧
    (processQueue ⟨⟨10, 5, 0, false, false, false⟩, fetchTree, none⟩ 10
        (initState "seed")).results.map (·.url) = ["seed", "a", "b", "c"] := by
  constructor
  · intro env it rest st
    by_cases h1 : st.visited.contains it.url = true
    · exact ⟨[], by rw [crawlStep_visited_case env it rest st h1]; simp⟩
    · have h1' : st.visited.contains it.url = false := by simpa using h1
      by_cases h2 : it.depth > env.options.maxDepth
      · exact ⟨[], by rw [crawlStep_depth_case env it rest st h1' h2]; simp⟩
      · by_cases h3 : robotsBlocked env it.url = true
        · exact ⟨[],
            by rw [crawlStep_robots_case env it rest st h1' h2 h3]; simp⟩
        · have h3' : robotsBlocked env it.url = false := by simpa using h3
          cases hres : (makeRequest env.options (env.fetch it.url) 0).result
            with
          | ok r =>
              obtain ⟨s, links⟩ := r
              obtain ⟨tail, ht⟩ := addLinksToQueue_append
                (st.visited ++ [it.url]) st.skippedUrls (it.depth + 1) it.url
                links rest
              refine ⟨tail, ?_⟩
              rw [crawlStep_ok_case env it rest st s links h1' h2 h3' hres]
              exact ht
          | error e =>
              by_cases hir : env.options.ignoreRestrictions = true
              · exact ⟨[], by
                  rw [crawlStep_err_ignore_case env it rest st e h1' h2 h3'
                    hres hir]
                  simp⟩
              · have hir' : env.options.ignoreRestrictions = false := by
                  simpa using hir
                cases hh : handleCrawlError env.options e it.url it.parent with
                | none =>
                    exact ⟨[], by
                      rw [crawlStep_err_fail_case env it rest st e h1' h2 h3'
                        hres hir' hh]
                      simp⟩
                | some sk0 =>
                    exact ⟨[], by
                      rw [crawlStep_err_skip_case env it rest st e sk0 h1' h2
                        h3' hres hir' hh]
                      simp⟩
  · decide

/-! The statistics computation of `saveResults` (claim C10). -/

/-- JavaScript number abstraction sufficient for the statistics computation:
NaN, the signed infinities, or a finite value (idealized as an exact
rational). -/
inductive JSNumber where
  | nan
  | posInf
  | negInf
  | num (q : ℚ)
deriving DecidableEq, Repr

/-- JavaScript division on numbers: `0 / 0` is NaN, `x / 0` for nonzero `x` a
signed infinity, otherwise exact division. -/
def jsDiv (a b : ℚ) : JSNumber :=
  if b = 0 then
    if a = 0 then .nan else if 0 < a then .posInf else .negInf
  else .num (a / b)

/-- `Math.round`: NaN and the infinities propagate; a finite value rounds to
the nearest integer, half up. -/
def jsRound : JSNumber → JSNumber
  | .num q => .num ((⌊q + 1 / 2⌋ : ℤ) : ℚ)
  | x => x

/-- The number `JSON.stringify` emits: `none` (null) for NaN and the
infinities, the value itself otherwise. -/
def jsonNumber : JSNumber → Option ℚ
  | .num q => some q
  | _ => none

/-- `this.results.reduce((sum, page) => sum + page.links.length, 0)`. -/
def totalLinks (results : List PageRecord) : Nat :=
  results.foldl (fun sum page => sum + page.links.length) 0

/-- The `averageLinksPerPage` statistic of `saveResults`:
`Math.round(totalLinks / results.length)`, with no guard on an empty result
list. -/
def averageLinksPerPage (results : List PageRecord) : JSNumber :=
  jsRound (jsDiv (totalLinks results) results.length)

/-- C10: a session ending with zero page records still computes its
statistics, but `averageLinksPerPage` is `Math.round(0 / 0) = NaN`, which
JSON-serializes to null — not the number 0. -/
theorem claim10_average_nan :
    averageLinksPerPage [] = JSNumber.nan ∧
    jsonNumber (averageLinksPerPage []) = none ∧
    averageLinksPerPage [] ≠ JSNumber.num 0 := by
  refine ⟨?_, ?_, ?_⟩ <;> decide

end Crawler
